import Mathlib

/-!
Verification development for the mmpm catalog synchronization and
upgrade-reconciliation engine (mmpm/core.py, mmpm/utils.py).

The Python code is shallowly embedded: file contents become explicit state
values, subprocess and network outcomes become function parameters, and the
functions under scrutiny become pure Lean functions that return both their
result and the post-call file-system state.
-/

set_option maxHeartbeats 1000000

/-- One catalog entry, mirroring `mmpm.models.MagicMirrorPackage`
(title, author, description, repository, directory).  The source file
`mmpm/models.py` is not part of the excerpt; the field set is taken from the
serialized form used throughout `core.py` (`serialize_full`). -/
structure MagicMirrorPackage where
  title : String := ""
  author : String := ""
  description : String := ""
  repository : String := ""
  directory : String := ""
deriving DecidableEq, Repr

/-- `MagicMirrorPackage()` with all-default fields, as produced by the
declined-candidate marker in `install_packages`. -/
def MagicMirrorPackage.emptyPackage : MagicMirrorPackage := {}

/-- A catalog: category name to ordered package list, in insertion order
(a Python `dict` preserves insertion order). -/
abbrev Catalog := List (String × List MagicMirrorPackage)

/-- The `"External Packages"` pseudo-category key (`mmpm.consts.EXTERNAL_PACKAGES`). -/
def externalPackagesKey : String := "External Packages"

/-- Python `dict` assignment `m[k] = v`: replace the value in place when the
key exists, otherwise append the new binding at the end. -/
def assocSet (l : List (String × β)) (k : String) (v : β) : List (String × β) :=
  if (l.lookup k).isSome then
    l.map (fun p => if p.1 = k then (k, v) else p)
  else
    l ++ [(k, v)]

/-- On-disk state relevant to `load_packages`: the snapshot (database) file,
its `.bak` sibling, and the external-packages file.  `none` models a file
that is missing or zero-length (the code treats both as absent via
`os.path.exists(f) and bool(os.stat(f).st_size)`). -/
structure LoadState where
  dbFile : Option Catalog
  bakFile : Option Catalog
  extFile : Option (List MagicMirrorPackage)
deriving DecidableEq, Repr

/-- Outcome of the remote scrape performed by `retrieve_packages`:
either the HTTP request raises (`HTTPError`/`URLError`), or scraping
produces a (possibly empty) catalog. -/
inductive FetchOutcome where
  | netError
  | scraped (c : Catalog)
deriving DecidableEq, Repr

/-- Result of `load_packages`: either the process terminated via
`mmpm.utils.fatal_msg` inside `retrieve_packages` (exit code 127), or the
function returned a catalog.  Both constructors carry the final on-disk
state. -/
inductive LoadResult where
  | fatal (st : LoadState)
  | ok (packages : Catalog) (st : LoadState)
deriving DecidableEq, Repr

/-- Final on-disk state of a `load_packages` run. -/
def LoadResult.state : LoadResult → LoadState
  | .fatal st => st
  | .ok _ st => st

/-- The unconditional backup step at the top of `load_packages`
(core.py lines 804-812): when the snapshot exists it is copied to its
`.bak` sibling before anything else happens. -/
def backupStep (st : LoadState) : LoadState :=
  if st.dbFile.isSome then { st with bakFile := st.dbFile } else st

/-- `load_packages(force_refresh)` (core.py lines 785-843).
`fetch` stands for the outcome of `retrieve_packages()`; it is consulted
only when the function actually fetches.  Fatal termination inside
`retrieve_packages` (network exception) is surfaced as `LoadResult.fatal`. -/
def load_packages (force_refresh : Bool) (fetch : FetchOutcome) (st : LoadState) :
    LoadResult :=
  let db_exists := st.dbFile.isSome
  let st1 := backupStep st
  -- `if force_refresh or not db_exists:` fetch a fresh catalog
  let step : Option (Catalog × LoadState) :=
    if force_refresh || !db_exists then
      match fetch with
      | .netError => none  -- `fatal_msg` inside retrieve_packages: process exits
      | .scraped c =>
        if c.isEmpty then
          some ([], st1)  -- error_msg printed, snapshot not overwritten
        else
          some (c, { st1 with dbFile := some c })
    else
      some ([], st1)
  match step with
  | none => .fatal st1
  | some (pkgs, st2) =>
    -- `if not packages and db_exists:` reload the stale snapshot
    let pkgs := if pkgs.isEmpty && db_exists then st.dbFile.getD [] else pkgs
    -- merge external packages when the file exists and is non-empty
    let pkgs :=
      match st2.extFile with
      | some ext => if pkgs.isEmpty then pkgs else assocSet pkgs externalPackagesKey ext
      | none => pkgs
    .ok pkgs st2

/-- Python's substring test `needle in hay` on strings. -/
def substrIn (needle hay : String) : Bool :=
  decide (needle.data <:+: hay.data)

/-- The match predicate selected by `search_packages` from its flags
(core.py lines 369-375). -/
def searchMatch (case_sensitive by_title_only : Bool)
    (query : String) (pkg : MagicMirrorPackage) : Bool :=
  if by_title_only then
    query == pkg.title
  else if case_sensitive then
    substrIn query pkg.description || substrIn query pkg.title || substrIn query pkg.author
  else
    substrIn query.toLower pkg.description.toLower
      || substrIn query.toLower pkg.title.toLower
      || substrIn query.toLower pkg.author.toLower

/-- `search_packages(packages, query, case_sensitive, by_title_only)`
(core.py lines 345-380).  A query equal to a category name returns that
single category untouched; otherwise every category is filtered by the
selected match predicate (in catalog order, `defaultdict` insertion order). -/
def search_packages (packages : Catalog) (query : String)
    (case_sensitive : Bool := false) (by_title_only : Bool := false) : Catalog :=
  match packages.lookup query with
  | some pkgs => [(query, pkgs)]
  | none =>
    packages.map (fun cp => (cp.1, cp.2.filter (searchMatch case_sensitive by_title_only query)))

/-- Per-environment entry of the upgrade ledger
(`{"packages": [...], "MagicMirror": bool}`). -/
structure RootEntry where
  packages : List MagicMirrorPackage
  magicmirror : Bool
deriving DecidableEq, Repr

/-- The upgrade-ledger document `mmpm-available-upgrades.json`:
the global `"mmpm"` self-upgrade flag plus one entry per dashboard root
path, in insertion order. -/
structure Ledger where
  mmpm : Bool
  roots : List (String × RootEntry)
deriving DecidableEq, Repr

/-- Content of the ledger file.  `none` models a file whose contents fail to
parse as JSON (`json.JSONDecodeError`); `some L` a structurally valid
document.  (A document that parses but whose root entry lacks the
`"packages"` key also raises `KeyError` in the source; that shape is outside
this typed model, which covers the missing-root-key case the spec names.) -/
abbrev LedgerFile := Option Ledger

/-- The default entry installed for a root: `{packages: [], MagicMirror: false}`. -/
def defaultRootEntry : RootEntry := ⟨[], false⟩

/-- `get_available_upgrades()` (core.py lines 1080-1119).  Returns the
in-memory document together with the post-call file contents: on a JSON
parse failure the whole file is reset to
`{mmpm: false, <root>: {packages: [], MagicMirror: false}}` and persisted;
on a valid document missing the current root key, a default entry for that
root is assigned (other keys untouched) and persisted; otherwise the file is
left alone. -/
def get_available_upgrades (root : String) (file : LedgerFile) : Ledger × LedgerFile :=
  match file with
  | none =>
    let d : Ledger := ⟨false, [(root, defaultRootEntry)]⟩
    (d, some d)
  | some L =>
    match L.roots.lookup root with
    | none =>
      let L' : Ledger := ⟨L.mmpm, assocSet L.roots root defaultRootEntry⟩
      (L', some L')
    | some _ => (L, some L)

/-- Outcome of one `upgrade_package` call (git pull plus dependency
install): `true` means the upgrade failed (non-empty stderr returned). -/
abbrev UpgradeFails := MagicMirrorPackage → Bool

/-- The confirmed-package upgrade loop of `upgrade_available`
(core.py lines 231-239): each confirmed package is upgraded in order; on
success it is removed (`list.remove`, first occurrence) from the pending
list, on failure it is left in place.  (`List.erase` matches Python
`list.remove` whenever the element is present, which holds for every call
made here since confirmed packages are drawn from the pending list.) -/
def upgrade_available_loop (fails : UpgradeFails) :
    List MagicMirrorPackage → List MagicMirrorPackage → List MagicMirrorPackage
  | [], pending => pending
  | c :: cs, pending =>
    upgrade_available_loop fails cs (if fails c then pending else pending.erase c)

/-- The ledger-facing behaviour of `upgrade_available`
(core.py lines 178-266) for a root already present in the ledger: runs the
confirmed-package loop against the pending list, clears the `mmpm` /
`MagicMirror` flags only when the corresponding upgrade was confirmed and
succeeded, and persists the resulting document.  (Serialization via
`serialize_full` is the identity at this level of modelling.) -/
def upgrade_available (root : String) (L : Ledger)
    (confirmed : List MagicMirrorPackage) (fails : UpgradeFails)
    (confirmedMmpm confirmedMagicmirror mmpmFails magicmirrorFails : Bool) : Ledger :=
  match L.roots.lookup root with
  | none => L
  | some e =>
    let pending := upgrade_available_loop fails confirmed e.packages
    let mmpmFlag := if confirmedMmpm && !mmpmFails then false else L.mmpm
    let mmFlag := if confirmedMagicmirror && !magicmirrorFails then false else e.magicmirror
    ⟨mmpmFlag, assocSet L.roots root ⟨pending, mmFlag⟩⟩

/-- Modelled from the spec: `mmpm.utils.reset_available_upgrades_for_environment`
is called by `check_for_package_updates` (core.py line 302) but its defining
module version in the excerpt does not contain it.  Spec section 4.3
(`reset_for_root`): "clears `packages` and `dashboard_app_upgrade` for a
root ...; returns whether the reset succeeded."  The ledger is read via the
usual repair path and the root's entry is reset to the default, then
persisted. -/
def reset_available_upgrades_for_environment (root : String) (file : LedgerFile) :
    Bool × LedgerFile :=
  let (L, _) := get_available_upgrades root file
  let L' : Ledger := ⟨L.mmpm, assocSet L.roots root defaultRootEntry⟩
  (true, some L')

/-- Outcome of the per-package `git fetch --dry-run` probe in
`check_for_package_updates`: the command fails, or it succeeds with
non-empty output (changes upstream), or with empty output (up to date). -/
inductive ProbeOutcome where
  | gitError
  | changes
  | upToDate
deriving DecidableEq, Repr

/-- `check_for_package_updates(packages)` (core.py lines 287-342), starting
from the already-computed installed view.  If nothing at all is installed,
the ledger entry for the current root is reset and the empty candidate list
returned.  Otherwise each installed package is probed in order: a failed
probe is skipped, non-empty output marks the package upgradable; the
resulting list replaces the root's pending `packages` (the `MagicMirror`
flag of an existing entry is preserved) and is persisted. -/
def check_for_package_updates (root : String)
    (installed : List (String × List MagicMirrorPackage))
    (probe : MagicMirrorPackage → ProbeOutcome) (file : LedgerFile) :
    List MagicMirrorPackage × LedgerFile :=
  let any_installed := installed.any (fun cp => !cp.2.isEmpty)
  if !any_installed then
    let (_, file') := reset_available_upgrades_for_environment root file
    ([], file')
  else
    let upgradeable :=
      installed.flatMap (fun cp => cp.2.filter (fun p => probe p == ProbeOutcome.changes))
    let (L, _) := get_available_upgrades root file
    let L1 : Ledger :=
      if (L.roots.lookup root).isNone then
        ⟨L.mmpm, assocSet L.roots root defaultRootEntry⟩
      else L
    let e := (L1.roots.lookup root).getD defaultRootEntry
    let L2 : Ledger := ⟨L1.mmpm, assocSet L1.roots root ⟨upgradeable, e.magicmirror⟩⟩
    (upgradeable, some L2)

/-- `os.path.join(dir, name)` for a relative `name` under an absolute `dir`. -/
def joinPath (dir name : String) : String := dir ++ "/" ++ name

/-- Outcome of one `install_package(package)` call inside the
`install_packages` loop: the clone-plus-dependency install succeeds, fails
(non-zero git exit or dependency error), or is cut short by a
`KeyboardInterrupt`. -/
inductive StepOutcome where
  | success
  | failure
  | interrupted
deriving DecidableEq, Repr

/-- Observable state threaded through the `install_packages` candidate loop:
the known module directory names (`existing_module_dirs`, basenames from
`os.listdir`, grown by `package.title` on success), the candidates for which
a directory conflict was reported, the candidates for which `install_package`
was actually invoked (i.e. a clone was attempted), and the directories
force-removed by the interrupt handler. -/
structure InstallState where
  dirs : List String
  conflicts : List MagicMirrorPackage
  attempted : List MagicMirrorPackage
  removed : List String
deriving DecidableEq, Repr

/-- Result of an `install_packages` run: the loop finishes, or the process
exits (exit code 127 via `keyboard_interrupt_log`) after the interrupt
handler cleans up. -/
inductive RunOutcome where
  | finished (st : InstallState)
  | exited (code : Nat) (st : InstallState)
deriving DecidableEq, Repr

/-- The candidate loop of `install_packages` (core.py lines 491-513).
A declined candidate was overwritten with `MagicMirrorPackage()` and is
skipped (`if package == None`; `mmpm/models.py` is absent from the excerpt —
modelled from the spec's skip-on-decline semantics, with the comparison to
`None` holding exactly for the default-constructed package).  For the rest,
`package.directory` is set to `<modules_dir>/<title>`; the conflict scan
compares that path against each known directory name and reports a conflict
on equality — the source's `continue` only leaves the inner scan, so
execution falls through to `install_package` regardless.  Success appends
`package.title` to the known directories; a `KeyboardInterrupt` force-removes
`package.directory` and exits with code 127. -/
def install_packages_loop (step : MagicMirrorPackage → StepOutcome)
    (modulesDir : String) :
    List MagicMirrorPackage → InstallState → RunOutcome
  | [], st => .finished st
  | pkg :: rest, st =>
    if pkg = MagicMirrorPackage.emptyPackage then
      install_packages_loop step modulesDir rest st
    else
      let pkg := { pkg with directory := joinPath modulesDir pkg.title }
      let st :=
        if st.dirs.contains pkg.directory then
          { st with conflicts := st.conflicts ++ [pkg] }
        else st
      let st := { st with attempted := st.attempted ++ [pkg] }
      match step pkg with
      | .success =>
        install_packages_loop step modulesDir rest { st with dirs := st.dirs ++ [pkg.title] }
      | .failure => install_packages_loop step modulesDir rest st
      | .interrupted => .exited 127 { st with removed := st.removed ++ [pkg.directory] }

/-- `install_packages(installation_candidates, assume_yes)`
(core.py lines 450-519).  `accepts` is the per-candidate answer gathered by
the prompt loop (lines 481-486); declined candidates are replaced by
`MagicMirrorPackage()`.  The return value is `True` exactly when the
directory list grew, i.e. at least one candidate installed successfully. -/
def install_packages (candidates : List MagicMirrorPackage)
    (accepts : MagicMirrorPackage → Bool) (existingDirs : List String)
    (step : MagicMirrorPackage → StepOutcome) (modulesDir : String)
    (modulesDirExists : Bool) : RunOutcome × Bool :=
  let init : InstallState := ⟨existingDirs, [], [], []⟩
  if !modulesDirExists then (.finished init, false)
  else if candidates.isEmpty then (.finished init, false)
  else
    let marked := candidates.map
      (fun c => if accepts c then c else MagicMirrorPackage.emptyPackage)
    match install_packages_loop step modulesDir marked init with
    | .finished st => (.finished st, decide (st.dirs.length ≠ existingDirs.length))
    | .exited code st => (.exited code st, false)

/-- One user action at an interactive prompt: a typed reply, or Ctrl-C. -/
inductive PromptStep where
  | reply (s : String)
  | interrupt
deriving DecidableEq, Repr

/-- Result of a function in a process that may terminate:
a normal return, or `sys.exit(code)`. -/
inductive ProcResult (α : Type) where
  | ret (a : α)
  | exit (code : Nat)
deriving DecidableEq, Repr

/-- The default acknowledgement answers of `prompt_user`. -/
def validAck : List String := ["yes", "y"]

/-- The default negative answers of `prompt_user`. -/
def validNack : List String := ["no", "n"]

/-- The retry loop of `prompt_user` over the stream of user actions:
an acknowledgement returns `True`, a negative answer returns `False`, any
other reply re-prompts, and a `KeyboardInterrupt` is caught and returns
`False` (utils.py lines 562-576) — the function never calls `sys.exit`.
(The source blocks forever on further input; an exhausted action stream is
modelled as the declining answer and is never reached in the runs studied
here.) -/
def prompt_user_go : List PromptStep → ProcResult Bool
  | [] => .ret false
  | .interrupt :: _ => .ret false
  | .reply s :: rest =>
    if validAck.contains s then .ret true
    else if validNack.contains s then .ret false
    else prompt_user_go rest

/-- `prompt_user(user_prompt, assume_yes)` (utils.py lines 540-576) with the
default answer lists. -/
def prompt_user (assume_yes : Bool) (inputs : List PromptStep) : ProcResult Bool :=
  if assume_yes then .ret true else prompt_user_go inputs

/-- `keyboard_interrupt_log()` (utils.py lines 53-66): logs and terminates
the process with exit status 127. -/
def keyboard_interrupt_log : ProcResult Bool := .exit 127

/-- One subdirectory of the MagicMirror modules directory as seen by the
scan phase of `get_installed_packages`: its basename, whether it is a
directory containing a `.git` entry, and the result of
`git config --get remote.origin.url` run inside it (`none` models a
non-zero exit). -/
structure CloneDir where
  name : String
  isDir : Bool
  hasGit : Bool
  remoteUrl : Option String
deriving DecidableEq, Repr

/-- Python's `str.strip()`: leading and trailing whitespace removed.
(Defined structurally over the character list so concrete instances reduce
inside the kernel.) -/
def pyStrip (s : String) : String :=
  ⟨((s.data.dropWhile Char.isWhitespace).reverse.dropWhile Char.isWhitespace).reverse⟩

/-- `basename <url> .git`: the last path component (for URLs without a
trailing slash) with a trailing `.git` suffix stripped, as used to derive a
project name from a remote URL. -/
def basenameGit (url : String) : String :=
  let comp := (url.data.reverse.takeWhile (fun ch => ch ≠ '/')).reverse
  if comp.reverse.take 4 = ['t', 'i', 'g', '.'] then ⟨comp.take (comp.length - 4)⟩
  else ⟨comp⟩

/-- The scan phase of `get_installed_packages` (core.py lines 1148-1185):
non-directories and directories without `.git` are skipped; a failing
`git config` is reported and skipped; otherwise a record is built with the
derived project name, the trimmed remote URL, and the directory's absolute
path (`os.getcwd()` after changing into it). -/
def packages_found (modulesDir : String) (clones : List CloneDir) :
    List MagicMirrorPackage :=
  clones.filterMap (fun c =>
    if c.isDir && c.hasGit then
      match c.remoteUrl with
      | some u =>
        some { title := pyStrip (basenameGit (pyStrip u))
               repository := pyStrip u
               directory := joinPath modulesDir c.name }
      | none => none
    else none)

/-- The matching phase of `get_installed_packages` for one catalog package
(core.py lines 1190-1194).  In the source the found records are scanned in
order; each match mutates the shared package object's `directory` and
appends the same object, so after the loop every appended alias carries the
directory of the last matching record. -/
def resolveInstalled (found : List MagicMirrorPackage)
    (p : MagicMirrorPackage) : List MagicMirrorPackage :=
  match (found.filter (fun f => p.repository == f.repository)).getLast? with
  | none => []
  | some lastf =>
    (found.filter (fun f => p.repository == f.repository)).map
      (fun _ => { p with directory := lastf.directory })

/-- `get_installed_packages(packages)` (core.py lines 1122-1196), from the
catalog and the scanned records: every category of the catalog appears (via
`setdefault`) in catalog order, holding the packages whose `repository`
equals the trimmed remote URL of some scanned clone, annotated with that
clone's directory. -/
def get_installed_packages (catalog : Catalog)
    (found : List MagicMirrorPackage) : Catalog :=
  catalog.map (fun cp => (cp.1, cp.2.flatMap (resolveInstalled found)))

theorem lookup_map_set_self {β : Type} (l : List (String × β)) (k : String) (v : β)
    (h : (l.lookup k).isSome) :
    (l.map (fun p => if p.1 = k then (k, v) else p)).lookup k = some v := by
  induction l with
  | nil => simp [List.lookup] at h
  | cons hd tl ih =>
    obtain ⟨a, b⟩ := hd
    by_cases hk : a = k
    · simp [List.lookup_cons, hk]
    · simp only [List.map_cons, if_neg hk, List.lookup_cons,
        beq_false_of_ne (Ne.symm hk)] at h ⊢
      exact ih h

theorem lookup_map_set_ne {β : Type} (l : List (String × β)) (k : String) (v : β)
    (r : String) (h : r ≠ k) :
    (l.map (fun p => if p.1 = k then (k, v) else p)).lookup r = l.lookup r := by
  induction l with
  | nil => rfl
  | cons hd tl ih =>
    obtain ⟨a, b⟩ := hd
    by_cases hk : a = k
    · simp only [List.map_cons, if_pos hk, List.lookup_cons, beq_false_of_ne h,
        beq_false_of_ne (hk ▸ h)]
      exact ih
    · by_cases hr : r = a
      · simp [List.lookup_cons, hr, if_neg hk]
      · simp only [List.map_cons, if_neg hk, List.lookup_cons, beq_false_of_ne hr]
        exact ih

theorem lookup_append_single_ne {β : Type} (l : List (String × β)) (k r : String) (v : β)
    (h : r ≠ k) :
    (l ++ [(k, v)]).lookup r = l.lookup r := by
  induction l with
  | nil => simp [List.lookup, beq_false_of_ne h]
  | cons hd tl ih =>
    obtain ⟨a, b⟩ := hd
    by_cases hr : r = a
    · simp [List.lookup_cons, hr]
    · simp only [List.cons_append, List.lookup_cons, beq_false_of_ne hr]
      exact ih

theorem lookup_append_single_self {β : Type} (l : List (String × β)) (k : String) (v : β)
    (h : l.lookup k = none) :
    (l ++ [(k, v)]).lookup k = some v := by
  induction l with
  | nil => simp [List.lookup]
  | cons hd tl ih =>
    obtain ⟨a, b⟩ := hd
    by_cases hr : k = a
    · simp [List.lookup_cons, hr] at h
    · simp only [List.lookup_cons, beq_false_of_ne hr] at h
      simp only [List.cons_append, List.lookup_cons, beq_false_of_ne hr]
      exact ih h

theorem assocSet_lookup_self {β : Type} (l : List (String × β)) (k : String) (v : β) :
    (assocSet l k v).lookup k = some v := by
  unfold assocSet
  by_cases h : (l.lookup k).isSome
  · rw [if_pos h]
    exact lookup_map_set_self l k v h
  · rw [if_neg h]
    exact lookup_append_single_self l k v (by
      cases hl : l.lookup k with
      | none => rfl
      | some b => rw [hl] at h; exact absurd rfl h)

theorem assocSet_lookup_ne {β : Type} (l : List (String × β)) (k : String) (v : β)
    (r : String) (h : r ≠ k) :
    (assocSet l k v).lookup r = l.lookup r := by
  unfold assocSet
  by_cases hs : (l.lookup k).isSome
  · rw [if_pos hs]; exact lookup_map_set_ne l k v r h
  · rw [if_neg hs]; exact lookup_append_single_ne l k r v h

theorem upgrade_loop_filter (fails : UpgradeFails) :
    ∀ (confirmed pending : List MagicMirrorPackage),
      confirmed.Nodup → pending.Nodup → confirmed ⊆ pending →
      upgrade_available_loop fails confirmed pending
        = pending.filter (fun p => decide (p ∈ confirmed → fails p = true)) := by
  intro confirmed
  induction confirmed with
  | nil =>
    intro pending _ _ _
    simp [upgrade_available_loop, List.filter_eq_self]
  | cons c cs ih =>
    intro pending hcn hpn hsub
    have hcn' : cs.Nodup := hcn.of_cons
    have hcnot : c ∉ cs := (List.nodup_cons.mp hcn).1
    by_cases hf : fails c = true
    · have hsub' : cs ⊆ pending := fun x hx => hsub (List.mem_cons_of_mem c hx)
      rw [upgrade_available_loop, if_pos hf, ih pending hcn' hpn hsub']
      apply List.filter_congr
      intro p _
      by_cases hpc : p = c
      · subst hpc
        simp [hf]
      · simp [List.mem_cons, hpc]
    · have hsub' : cs ⊆ pending.erase c := by
        intro x hx
        have hxp : x ∈ pending := hsub (List.mem_cons_of_mem c hx)
        have hxc : x ≠ c := fun he => hcnot (he ▸ hx)
        exact (List.mem_erase_of_ne hxc).mpr hxp
      rw [upgrade_available_loop, if_neg hf, ih (pending.erase c) hcn' (hpn.erase c) hsub']
      rw [hpn.erase_eq_filter c, List.filter_filter]
      apply List.filter_congr
      intro p _
      by_cases hpc : p = c
      · subst hpc
        simp [hf]
      · simp [List.mem_cons, hpc]

/-- C4: in `upgrade_available`, every confirmed pending package whose upgrade
succeeds is removed from the root's pending list and every one whose upgrade
fails stays; the persisted entry holds exactly the packages that are either
unconfirmed or failed, so when every pending package was confirmed the
persisted pending list is exactly the failed ones. -/
theorem upgrade_partial_batch (root : String) (L : Ledger) (e : RootEntry)
    (confirmed : List MagicMirrorPackage) (fails : UpgradeFails)
    (cM cG fM fG : Bool)
    (hroot : L.roots.lookup root = some e)
    (hcn : confirmed.Nodup) (hpn : e.packages.Nodup) (hsub : confirmed ⊆ e.packages) :
    (upgrade_available root L confirmed fails cM cG fM fG).roots.lookup root
      = some ⟨e.packages.filter (fun p => decide (p ∈ confirmed → fails p = true)),
              if cG && !fG then false else e.magicmirror⟩
    ∧ (confirmed = e.packages →
        (upgrade_available root L confirmed fails cM cG fM fG).roots.lookup root
          = some ⟨e.packages.filter (fun p => fails p),
                  if cG && !fG then false else e.magicmirror⟩) := by
  have hmain :
      (upgrade_available root L confirmed fails cM cG fM fG).roots.lookup root
        = some ⟨e.packages.filter (fun p => decide (p ∈ confirmed → fails p = true)),
                if cG && !fG then false else e.magicmirror⟩ := by
    simp only [upgrade_available, hroot]
    rw [assocSet_lookup_self, upgrade_loop_filter fails confirmed e.packages hcn hpn hsub]
  refine ⟨hmain, ?_⟩
  intro hall
  rw [hmain]
  have hfc : e.packages.filter (fun p => decide (p ∈ confirmed → fails p = true))
      = e.packages.filter (fun p => fails p) := by
    apply List.filter_congr
    intro p hp
    subst hall
    simp [hp]
  rw [hfc]

/-- C4 witness: three pending packages, all confirmed, only the second
fails to upgrade — the persisted pending list is exactly the second. -/
theorem upgrade_partial_batch_witness :
    (upgrade_available "/mm"
        ⟨false, [("/mm", ⟨[⟨"A", "", "", "", ""⟩, ⟨"B", "", "", "", ""⟩, ⟨"C", "", "", "", ""⟩],
                  true⟩)]⟩
        [⟨"A", "", "", "", ""⟩, ⟨"B", "", "", "", ""⟩, ⟨"C", "", "", "", ""⟩]
        (fun p => p.title == "B") false false false false).roots.lookup "/mm"
      = some ⟨[⟨"B", "", "", "", ""⟩], true⟩ := by
  have h := (upgrade_partial_batch "/mm"
      ⟨false, [("/mm", ⟨[⟨"A", "", "", "", ""⟩, ⟨"B", "", "", "", ""⟩, ⟨"C", "", "", "", ""⟩],
                true⟩)]⟩
      ⟨[⟨"A", "", "", "", ""⟩, ⟨"B", "", "", "", ""⟩, ⟨"C", "", "", "", ""⟩], true⟩
      [⟨"A", "", "", "", ""⟩, ⟨"B", "", "", "", ""⟩, ⟨"C", "", "", "", ""⟩]
      (fun p => p.title == "B") false false false false
      (by decide) (by decide) (by decide) (fun x hx => hx)).2 rfl
  exact h.trans (by decide)

/-- C3: `get_available_upgrades` repairs the ledger file: malformed JSON
resets the whole document to `{mmpm: false, root: {packages: [],
MagicMirror: false}}` and persists the reset immediately; a valid document
missing the current root key gets a default entry for that root appended and
persisted, with every other root's entry left unchanged. -/
theorem ledger_repair (root : String) (file : LedgerFile) :
    (file = none →
      get_available_upgrades root file
        = (⟨false, [(root, defaultRootEntry)]⟩, some ⟨false, [(root, defaultRootEntry)]⟩))
    ∧ (∀ L, file = some L → L.roots.lookup root = none →
        get_available_upgrades root file
          = (⟨L.mmpm, L.roots ++ [(root, defaultRootEntry)]⟩,
             some ⟨L.mmpm, L.roots ++ [(root, defaultRootEntry)]⟩)
        ∧ (∀ r, r ≠ root →
            (L.roots ++ [(root, defaultRootEntry)]).lookup r = L.roots.lookup r)
        ∧ (L.roots ++ [(root, defaultRootEntry)]).lookup root = some defaultRootEntry) := by
  constructor
  · intro h
    subst h
    rfl
  · intro L h hmiss
    subst h
    refine ⟨?_, ?_, ?_⟩
    · simp only [get_available_upgrades, hmiss]
      unfold assocSet
      rw [hmiss]
      simp
    · intro r hr
      exact lookup_append_single_ne L.roots root r defaultRootEntry hr
    · exact lookup_append_single_self L.roots root defaultRootEntry hmiss

/-- C3 witness: a valid ledger knowing only root `/a` gains a default entry
for `/mm` — persisted — while `/a` keeps its entry; a malformed file resets
to the default document. -/
theorem ledger_repair_witness :
    get_available_upgrades "/mm" (some ⟨true, [("/a", ⟨[], true⟩)]⟩)
      = (⟨true, [("/a", ⟨[], true⟩), ("/mm", ⟨[], false⟩)]⟩,
         some ⟨true, [("/a", ⟨[], true⟩), ("/mm", ⟨[], false⟩)]⟩)
    ∧ get_available_upgrades "/mm" none
      = (⟨false, [("/mm", ⟨[], false⟩)]⟩, some ⟨false, [("/mm", ⟨[], false⟩)]⟩) := by
  have h := (ledger_repair "/mm" (some ⟨true, [("/a", ⟨[], true⟩)]⟩)).2
      ⟨true, [("/a", ⟨[], true⟩)]⟩ rfl (by decide)
  have h0 := (ledger_repair "/mm" none).1 rfl
  exact ⟨h.1.trans (by decide), h0.trans (by decide)⟩

/-- C10: a query equal to one of the catalog's category names makes
`search_packages` return exactly that category with its full, unfiltered
package list, whatever the `case_sensitive` and `by_title_only` flags. -/
theorem search_category_exact (packages : Catalog) (query : String)
    (pkgs : List MagicMirrorPackage) (cs bt : Bool)
    (h : packages.lookup query = some pkgs) :
    search_packages packages query cs bt = [(query, pkgs)] := by
  unfold search_packages
  rw [h]

/-- C10 witness: with `by_title_only = true` and a package whose title does
not match the query, the category hit still returns the full list. -/
theorem search_category_exact_witness :
    search_packages [("Clocks", [⟨"Foo", "", "", "https://x/foo", ""⟩]), ("Weather", [])]
        "Clocks" true true
      = [("Clocks", [⟨"Foo", "", "", "https://x/foo", ""⟩])] :=
  search_category_exact _ "Clocks" _ true true (by decide)

/-- C1 counterexample: with an existing snapshot and a fetch that returns an
empty result, `load_packages` still writes the `.bak` backup (the copy
happens unconditionally at the top of the function, before the fetch),
refuting "for every load in which the fetch returns an empty result, no
backup is taken". -/
theorem load_backup_always_counterexample :
    (load_packages true (FetchOutcome.scraped [])
        ⟨some [("Clocks", [⟨"Foo", "", "", "https://x/foo", ""⟩])], none, none⟩).state
      = ⟨some [("Clocks", [⟨"Foo", "", "", "https://x/foo", ""⟩])],
         some [("Clocks", [⟨"Foo", "", "", "https://x/foo", ""⟩])], none⟩ := by
  decide

/-- C1 amended: `load_packages` backs up a pre-existing snapshot to its
`.bak` sibling unconditionally at the start of every load, regardless of
refresh mode or fetch outcome — so when a snapshot exists and a refresh
succeeds the post-refresh `.bak` equals the pre-refresh snapshot; the
snapshot file itself is overwritten only when a fetch happens and returns a
non-empty result, and is left unchanged when the fetch returns an empty
result. -/
theorem load_backup_always (force : Bool) (fetch : FetchOutcome) (st : LoadState) :
    ((load_packages force fetch st).state.bakFile
        = if st.dbFile.isSome then st.dbFile else st.bakFile)
    ∧ (fetch = .scraped [] → (load_packages force fetch st).state.dbFile = st.dbFile)
    ∧ (∀ c, fetch = .scraped c → c ≠ [] → (force = true ∨ st.dbFile = none) →
        (load_packages force fetch st).state.dbFile = some c) := by
  obtain ⟨db, bak, ext⟩ := st
  refine ⟨?_, ?_, ?_⟩
  · cases fetch with
    | netError =>
      cases force <;> cases db <;>
        simp [load_packages, backupStep, LoadResult.state]
    | scraped c =>
      by_cases hc : c.isEmpty <;> cases force <;> cases db <;>
        simp [load_packages, backupStep, LoadResult.state, hc]
  · intro h
    subst h
    cases force <;> cases db <;>
      simp [load_packages, backupStep, LoadResult.state]
  · intro c h hne hforce
    subst h
    have hc : c.isEmpty = false := by
      cases c with
      | nil => exact absurd rfl hne
      | cons hd tl => rfl
    rcases hforce with hf | hdb
    · subst hf
      cases db <;> simp [load_packages, backupStep, LoadResult.state, hc]
    · subst hdb
      cases force <;> simp [load_packages, backupStep, LoadResult.state, hc]

/-- C1 amended witness: a forced refresh over an existing snapshot with a
non-empty fetch result copies the old snapshot to `.bak` and overwrites the
snapshot with the fetch result. -/
theorem load_backup_always_witness :
    ((load_packages true (FetchOutcome.scraped [("A", [])])
        ⟨some [("Clocks", [])], none, none⟩).state.bakFile = some [("Clocks", [])])
    ∧ ((load_packages true (FetchOutcome.scraped [("A", [])])
        ⟨some [("Clocks", [])], none, none⟩).state.dbFile = some [("A", [])]) := by
  have h := load_backup_always true (FetchOutcome.scraped [("A", [])])
      ⟨some [("Clocks", [])], none, none⟩
  exact ⟨h.1.trans (by decide), h.2.2 [("A", [])] rfl (by decide) (Or.inl rfl)⟩

/-- C5 counterexample: with a stale snapshot on disk, a forced refresh whose
fetch raises a network error terminates the process fatally inside
`retrieve_packages` instead of reporting the error and returning the stale
snapshot's contents, refuting the claimed fallback. -/
theorem load_fetch_failure_counterexample :
    load_packages true FetchOutcome.netError
        ⟨some [("Clocks", [⟨"Foo", "", "", "https://x/foo", ""⟩])], none, none⟩
      = LoadResult.fatal
          ⟨some [("Clocks", [⟨"Foo", "", "", "https://x/foo", ""⟩])],
           some [("Clocks", [⟨"Foo", "", "", "https://x/foo", ""⟩])], none⟩ := by
  decide

/-- C5 amended: when `load_packages` must fetch (forced refresh or no usable
snapshot), a fetch that raises a network error stops the process with a
fatal diagnostic whether or not a snapshot exists (the snapshot file is left
unchanged); a fetch that returns an empty result is reported as an error,
leaves the snapshot file unchanged, and the stale snapshot's contents are
returned when a snapshot exists (an empty catalog when none does). -/
theorem load_fetch_failure (force : Bool) (st : LoadState)
    (hfetch : force = true ∨ st.dbFile = none) (hext : st.extFile = none) :
    (load_packages force FetchOutcome.netError st = .fatal (backupStep st)
      ∧ (backupStep st).dbFile = st.dbFile)
    ∧ load_packages force (FetchOutcome.scraped []) st
        = .ok (st.dbFile.getD []) (backupStep st) := by
  obtain ⟨db, bak, ext⟩ := st
  simp only at hext
  subst hext
  rcases hfetch with hf | hdb
  · subst hf
    cases db <;> simp [load_packages, backupStep]
  · simp only at hdb
    subst hdb
    cases force <;> simp [load_packages, backupStep]

/-- C5 amended witness: concrete run of both failure modes over an existing
snapshot under a forced refresh. -/
theorem load_fetch_failure_witness :
    (load_packages true FetchOutcome.netError ⟨some [("Clocks", [])], none, none⟩
        = LoadResult.fatal ⟨some [("Clocks", [])], some [("Clocks", [])], none⟩)
    ∧ (load_packages true (FetchOutcome.scraped []) ⟨some [("Clocks", [])], none, none⟩
        = LoadResult.ok [("Clocks", [])] ⟨some [("Clocks", [])], some [("Clocks", [])], none⟩) := by
  have h := load_fetch_failure true ⟨some [("Clocks", [])], none, none⟩ (Or.inl rfl) rfl
  exact ⟨h.1.1.trans (by decide), h.2.trans (by decide)⟩

/-- C2 (code bug evaluation): a single accepted candidate `Foo` whose
directory already exists among the known module directories.  In the first
run the conflict scan compares the absolute target path
`/home/user/MagicMirror/modules/Foo` against the `os.listdir` basename
`"Foo"`, so no conflict is detected and `install_package` (the clone) is
attempted anyway.  The second run feeds the full path as the existing entry
to show that even when the comparison matches, the source's `continue` only
leaves the inner scan: the conflict is recorded but the clone is still
attempted.  Both contradict "reported as a conflict and skipped (its
repository is not cloned)". -/
theorem install_conflict_bug :
    (install_packages [⟨"Foo", "", "", "https://x/foo", ""⟩] (fun _ => true)
        ["Foo"] (fun _ => .failure) "/home/user/MagicMirror/modules" true
      = (.finished ⟨["Foo"], [],
          [⟨"Foo", "", "", "https://x/foo", "/home/user/MagicMirror/modules/Foo"⟩], []⟩,
         false))
    ∧ (install_packages [⟨"Foo", "", "", "https://x/foo", ""⟩] (fun _ => true)
        ["/home/user/MagicMirror/modules/Foo"] (fun _ => .failure)
        "/home/user/MagicMirror/modules" true
      = (.finished ⟨["/home/user/MagicMirror/modules/Foo"],
          [⟨"Foo", "", "", "https://x/foo", "/home/user/MagicMirror/modules/Foo"⟩],
          [⟨"Foo", "", "", "https://x/foo", "/home/user/MagicMirror/modules/Foo"⟩], []⟩,
         false)) := by
  decide

/-- C8 counterexample: a keyboard interrupt at an interactive prompt is
caught inside `prompt_user` and reported as the declined answer — the
function returns normally with `False` and does not terminate the process
with the distinguished exit status 127, refuting "an interruption at any
other prompt likewise terminates the process". -/
theorem prompt_interrupt_counterexample :
    prompt_user false [PromptStep.interrupt] = ProcResult.ret false
    ∧ prompt_user false [PromptStep.interrupt] ≠ ProcResult.exit 127 := by
  decide

/-- C8 amended: a keyboard interrupt during an install force-removes the
partially cloned directory and terminates the process with exit status 127;
a keyboard interrupt at a prompt is caught by `prompt_user` and treated as a
declined answer, and the process keeps running. -/
theorem interrupt_handling (step : MagicMirrorPackage → StepOutcome)
    (modulesDir : String) (p : MagicMirrorPackage)
    (rest : List MagicMirrorPackage) (st : InstallState)
    (hne : p ≠ MagicMirrorPackage.emptyPackage)
    (hint : step { p with directory := joinPath modulesDir p.title } = .interrupted) :
    (∃ st', install_packages_loop step modulesDir (p :: rest) st = .exited 127 st'
      ∧ joinPath modulesDir p.title ∈ st'.removed)
    ∧ (∀ inputs, prompt_user false (PromptStep.interrupt :: inputs) = ProcResult.ret false) := by
  constructor
  · rw [install_packages_loop, if_neg hne]
    simp only [hint]
    refine ⟨_, rfl, ?_⟩
    simp
  · intro inputs
    rfl

/-- C8 amended witness: an interrupted clone of `Foo` exits with status 127
after force-removing `<modules>/Foo`, while an interrupt at a prompt just
answers no. -/
theorem interrupt_handling_witness :
    (∃ st', install_packages_loop (fun _ => .interrupted) "/m"
        [⟨"Foo", "", "", "https://x/foo", ""⟩] ⟨[], [], [], []⟩ = .exited 127 st'
      ∧ "/m" ++ "/" ++ "Foo" ∈ st'.removed)
    ∧ (∀ inputs, prompt_user false (PromptStep.interrupt :: inputs) = ProcResult.ret false) :=
  interrupt_handling (fun _ => .interrupted) "/m" ⟨"Foo", "", "", "https://x/foo", ""⟩
    [] ⟨[], [], [], []⟩ (by decide) rfl

/-- C6: when the installed view contains no packages at all,
`check_for_package_updates` returns an empty candidate list and resets the
ledger entry for the current root to `{packages: [], MagicMirror: false}`,
persisting it. -/
theorem check_updates_no_installs (root : String)
    (installed : List (String × List MagicMirrorPackage))
    (probe : MagicMirrorPackage → ProbeOutcome) (file : LedgerFile)
    (h : ∀ cp ∈ installed, cp.2 = []) :
    ∃ L', check_for_package_updates root installed probe file = ([], some L')
      ∧ L'.roots.lookup root = some ⟨[], false⟩ := by
  have hany : installed.any (fun cp => !cp.2.isEmpty) = false := by
    rw [List.any_eq_false]
    intro x hx
    rw [h x hx]
    decide
  refine ⟨⟨(get_available_upgrades root file).1.mmpm,
      assocSet (get_available_upgrades root file).1.roots root defaultRootEntry⟩, ?_, ?_⟩
  · simp [check_for_package_updates, hany, reset_available_upgrades_for_environment]
  · exact assocSet_lookup_self _ root defaultRootEntry

/-- C6 witness: an installed view whose categories are all empty, over a
ledger with a stale entry for the current root. -/
theorem check_updates_no_installs_witness :
    ∃ L', check_for_package_updates "/mm" [("Clocks", []), ("Weather", [])]
        (fun _ => ProbeOutcome.changes)
        (some ⟨true, [("/mm", ⟨[⟨"Foo", "", "", "https://x/foo", ""⟩], true⟩)]⟩)
      = ([], some L')
      ∧ L'.roots.lookup "/mm" = some ⟨[], false⟩ :=
  check_updates_no_installs "/mm" [("Clocks", []), ("Weather", [])]
    (fun _ => ProbeOutcome.changes)
    (some ⟨true, [("/mm", ⟨[⟨"Foo", "", "", "https://x/foo", ""⟩], true⟩)]⟩)
    (by decide)

theorem mem_packages_found {modulesDir : String} {clones : List CloneDir}
    {f : MagicMirrorPackage} (h : f ∈ packages_found modulesDir clones) :
    ∃ c ∈ clones, ∃ u, c.remoteUrl = some u
      ∧ f = ⟨pyStrip (basenameGit (pyStrip u)), "", "", pyStrip u,
             joinPath modulesDir c.name⟩ := by
  unfold packages_found at h
  rw [List.mem_filterMap] at h
  obtain ⟨c, hc, hfc⟩ := h
  refine ⟨c, hc, ?_⟩
  by_cases hd : (c.isDir && c.hasGit) = true
  · rw [if_pos hd] at hfc
    cases hu : c.remoteUrl with
    | none => rw [hu] at hfc; cases hfc
    | some u =>
      rw [hu] at hfc
      simp only [Option.some.injEq] at hfc
      exact ⟨u, rfl, hfc.symm⟩
  · rw [if_neg hd] at hfc
    cases hfc

theorem mem_resolveInstalled {found : List MagicMirrorPackage}
    {p q : MagicMirrorPackage} (h : q ∈ resolveInstalled found p) :
    ∃ f ∈ found, p.repository = f.repository
      ∧ q = { p with directory := f.directory } := by
  unfold resolveInstalled at h
  cases hms : (found.filter (fun f => p.repository == f.repository)).getLast? with
  | none => rw [hms] at h; cases h
  | some lastf =>
    rw [hms] at h
    rw [List.mem_map] at h
    obtain ⟨f0, _, hq⟩ := h
    have hlast : lastf ∈ found.filter (fun f => p.repository == f.repository) :=
      List.mem_of_mem_getLast? hms
    have hmem := List.mem_filter.mp hlast
    exact ⟨lastf, hmem.1, eq_of_beq hmem.2, hq.symm⟩

theorem installed_map_fst (catalog : Catalog) (found : List MagicMirrorPackage) :
    (get_installed_packages catalog found).map Prod.fst = catalog.map Prod.fst := by
  unfold get_installed_packages
  rw [List.map_map]
  rfl

/-- C7: `get_installed_packages` keeps the catalog's categories (in order)
and fills each with exactly those catalog packages whose `repository`
equals the trimmed remote origin URL of some scanned clone, the `directory`
set to that clone's absolute path; a catalog package matching no clone is
absent from every category of the result. -/
theorem installed_resolution_subset (catalog : Catalog) (modulesDir : String)
    (clones : List CloneDir) :
    ((get_installed_packages catalog (packages_found modulesDir clones)).map Prod.fst
        = catalog.map Prod.fst)
    ∧ (∀ cp ∈ get_installed_packages catalog (packages_found modulesDir clones),
        ∀ q ∈ cp.2,
          (∃ c ∈ clones, ∃ u, c.remoteUrl = some u ∧ q.repository = pyStrip u
            ∧ q.directory = joinPath modulesDir c.name)
          ∧ (∃ pr ∈ catalog, pr.1 = cp.1 ∧ ∃ p ∈ pr.2,
              q = { p with directory := q.directory }))
    ∧ (∀ pr ∈ catalog, ∀ p ∈ pr.2,
        (∀ f ∈ packages_found modulesDir clones, p.repository ≠ f.repository) →
        ∀ cp ∈ get_installed_packages catalog (packages_found modulesDir clones),
          p ∉ cp.2) := by
  refine ⟨installed_map_fst catalog (packages_found modulesDir clones), ?_, ?_⟩
  · intro cp hcp q hq
    unfold get_installed_packages at hcp
    rw [List.mem_map] at hcp
    obtain ⟨pr, hpr, hcpeq⟩ := hcp
    subst hcpeq
    simp only at hq
    rw [List.mem_flatMap] at hq
    obtain ⟨p, hp, hqr⟩ := hq
    obtain ⟨f, hf, hrepo, hqeq⟩ := mem_resolveInstalled hqr
    obtain ⟨c, hc, u, hu, hfeq⟩ := mem_packages_found hf
    constructor
    · refine ⟨c, hc, u, hu, ?_, ?_⟩
      · rw [hqeq]
        simp only
        rw [hrepo, hfeq]
      · rw [hqeq]
        simp only
        rw [hfeq]
    · refine ⟨pr, hpr, rfl, p, hp, ?_⟩
      rw [hqeq]
  · intro pr hpr p hp hnone cp hcp hmem
    unfold get_installed_packages at hcp
    rw [List.mem_map] at hcp
    obtain ⟨pr', _, hcpeq⟩ := hcp
    subst hcpeq
    simp only at hmem
    rw [List.mem_flatMap] at hmem
    obtain ⟨p', _, hres⟩ := hmem
    obtain ⟨f, hf, hrepo', hpeq⟩ := mem_resolveInstalled hres
    have : p.repository = f.repository := by
      rw [hpeq]
      simp only
      exact hrepo'
    exact hnone f hf this

/-- C7 witness: catalog `{"Clocks": [Foo -> https://x/foo]}` against a clone
of `foo` with remote `https://x/foo` (plus a non-git directory): the single
resolved package carries the clone's trimmed remote and directory, and stems
from the catalog's `Foo`. -/
theorem installed_resolution_subset_witness :
    (∃ c ∈ [(⟨"foo", true, true, some "https://x/foo\n"⟩ : CloneDir),
            ⟨"junk", true, false, none⟩], ∃ u, c.remoteUrl = some u
      ∧ (⟨"Foo", "", "", "https://x/foo", "/m/foo"⟩ : MagicMirrorPackage).repository = pyStrip u
      ∧ (⟨"Foo", "", "", "https://x/foo", "/m/foo"⟩ : MagicMirrorPackage).directory
          = joinPath "/m" c.name)
    ∧ (∃ pr ∈ [("Clocks", [(⟨"Foo", "", "", "https://x/foo", ""⟩ : MagicMirrorPackage)])],
        pr.1 = ("Clocks",
          [(⟨"Foo", "", "", "https://x/foo", "/m/foo"⟩ : MagicMirrorPackage)]).1
        ∧ ∃ p ∈ pr.2, (⟨"Foo", "", "", "https://x/foo", "/m/foo"⟩ : MagicMirrorPackage)
            = { p with directory :=
                (⟨"Foo", "", "", "https://x/foo", "/m/foo"⟩ : MagicMirrorPackage).directory }) :=
  (installed_resolution_subset [("Clocks", [⟨"Foo", "", "", "https://x/foo", ""⟩])] "/m"
      [⟨"foo", true, true, some "https://x/foo\n"⟩, ⟨"junk", true, false, none⟩]).2.1
    ("Clocks", [⟨"Foo", "", "", "https://x/foo", "/m/foo"⟩]) (by decide)
    ⟨"Foo", "", "", "https://x/foo", "/m/foo"⟩ (by decide)

theorem forall₂_map_self {α β : Type} (g : α → β) (rel : α → β → Prop) (l : List α)
    (h : ∀ a ∈ l, rel a (g a)) : List.Forall₂ rel l (l.map g) := by
  induction l with
  | nil => exact List.Forall₂.nil
  | cons hd tl ih =>
    exact List.Forall₂.cons (h hd (List.mem_cons_self hd tl))
      (ih fun a ha => h a (List.mem_cons_of_mem hd ha))

/-- C9: a forced refresh whose scrape succeeds returns the scraped document
itself (categories in scrape order, packages in scrape order, absent an
external-packages file); `search_packages` in its filtering branch keeps the
category sequence and returns an order-preserving sublist of each category;
`get_installed_packages` keeps the category sequence — no reordering
anywhere. -/
theorem order_preserved :
    (∀ (c : Catalog) (st : LoadState), c ≠ [] → st.extFile = none →
      ∃ st', load_packages true (.scraped c) st = .ok c st')
    ∧ (∀ (catalog : Catalog) (q : String) (cs bt : Bool), catalog.lookup q = none →
        List.Forall₂ (fun o r => o.1 = r.1 ∧ r.2.Sublist o.2)
          catalog (search_packages catalog q cs bt))
    ∧ (∀ (catalog : Catalog) (found : List MagicMirrorPackage),
        (get_installed_packages catalog found).map Prod.fst = catalog.map Prod.fst) := by
  refine ⟨?_, ?_, ?_⟩
  · intro c st hne hext
    obtain ⟨db, bak, ext⟩ := st
    simp only at hext
    subst hext
    have hc : c.isEmpty = false := by
      cases c with
      | nil => exact absurd rfl hne
      | cons hd tl => rfl
    cases db with
    | none => exact ⟨⟨some c, bak, none⟩, by simp [load_packages, backupStep, hc]⟩
    | some d => exact ⟨⟨some c, some d, none⟩, by simp [load_packages, backupStep, hc]⟩
  · intro catalog q cs bt h
    unfold search_packages
    rw [h]
    exact forall₂_map_self _ _ catalog fun a _ => ⟨rfl, List.filter_sublist a.2⟩
  · intro catalog found
    exact installed_map_fst catalog found

/-- C9 witness: a three-category scrape refreshed over an unrelated snapshot
comes back in scrape order, and a non-category search over a two-category
catalog keeps both categories in order with filtered contents. -/
theorem order_preserved_witness :
    (∃ st', load_packages true
        (FetchOutcome.scraped [("A", []), ("B", []), ("C", [])])
        ⟨some [("Z", [])], none, none⟩
      = .ok [("A", []), ("B", []), ("C", [])] st')
    ∧ List.Forall₂ (fun o r => o.1 = r.1 ∧ r.2.Sublist o.2)
        [("Clocks", [(⟨"Foo", "", "", "https://x/foo", ""⟩ : MagicMirrorPackage)]),
         ("Weather", [])]
        (search_packages
          [("Clocks", [(⟨"Foo", "", "", "https://x/foo", ""⟩ : MagicMirrorPackage)]),
           ("Weather", [])] "nothing" false false) :=
  ⟨(order_preserved).1 [("A", []), ("B", []), ("C", [])] ⟨some [("Z", [])], none, none⟩
      (by decide) rfl,
   (order_preserved).2.1
      [("Clocks", [⟨"Foo", "", "", "https://x/foo", ""⟩]), ("Weather", [])]
      "nothing" false false (by decide)⟩
